import Mathlib

/-!
# Verification of the able2flow event-sourced audit store

Shallow embedding of `apps/backend/services/audit_service.py` and
`apps/backend/services/event_store.py`.

Modelling conventions:
* JSON scalar values are `Value` (string / integer / boolean); a decoded JSON
  object (Python `dict`) is an insertion-ordered association list `Dict`.
  Python dict assignment `d[k] = v` replaces in place or appends (`dinsert`),
  and `d.update(other)` folds `dinsert` over `other` (`dupdate`).
* The `audit_log` table is the list `DB.rows` in rowid (insertion) order,
  together with the `AUTOINCREMENT` counter `DB.nextId`; the four live tables
  of `restore_entity`'s `table_map` are lists of row-dicts.
* SQL `TEXT` timestamp comparison is lexicographic `String` order, which is
  exactly what SQLite's BINARY collation computes on ISO-format strings.
* The query `ORDER BY timestamp DESC LIMIT 1` of `get_state_at` has no `id`
  tiebreaker; SQLite scans in rowid order and keeps the first row whose sort
  key is maximal, so on equal timestamps the *earliest inserted* row is
  returned.  `selectLatest` models exactly that (leftmost maximum).
* `ORDER BY timestamp ASC` (history) and `ORDER BY timestamp DESC` (feed)
  are modelled as stable sorts (`List.insertionSort`), matching SQLite's
  observed rowid-stable ordering on ties.
* Python truthiness is explicit: `None` and `{}` are falsy for dicts
  (`storeSnap`, `falsyState`), and `Value.truthy` for scalars.
* `sqlite3` raises on the malformed SQL that `restore_entity` builds when the
  restored field list is empty (`UPDATE t SET  WHERE id = ?` /
  `INSERT INTO t () VALUES ()`); this surfaces as `RestoreResult.sqlError`
  and, since it happens before `conn.commit()`, leaves the database unchanged.
-/

namespace Flowable

/-- Strict lexicographic comparison of character lists by code point: this
is what SQLite's BINARY collation computes on UTF-8 TEXT columns, hence the
order of the `timestamp` column. -/
def charsLt : List Char → List Char → Bool
  | [], [] => false
  | [], _ :: _ => true
  | _ :: _, [] => false
  | a :: as, b :: bs =>
    if a.toNat < b.toNat then true
    else if b.toNat < a.toNat then false
    else charsLt as bs

/-- SQL `s < t` on TEXT timestamps. -/
def tsLt (s t : String) : Bool := charsLt s.data t.data

/-- SQL `s <= t` on TEXT timestamps. -/
def tsLe (s t : String) : Bool := !(tsLt t s)

/-- A JSON scalar value as stored in `old_value` / `new_value` snapshots. -/
inductive Value where
  | str : String → Value
  | int : Int → Value
  | bool : Bool → Value
deriving DecidableEq, Repr

/-- Python truthiness of a scalar. -/
def Value.truthy : Value → Bool
  | .str s => !(s == "")
  | .int n => !(n == 0)
  | .bool b => b

/-- A decoded JSON object: insertion-ordered association list. -/
abbrev Dict := List (String × Value)

/-- `d.get(k)`: first binding of `k`, if any. -/
def dget : Dict → String → Option Value
  | [], _ => none
  | (k0, v0) :: rest, k => if k0 = k then some v0 else dget rest k

/-- Truthiness of `d.get(k)`-style optional values (`None` is falsy). -/
def optTruthy : Option Value → Bool
  | none => false
  | some v => v.truthy

/-- Python `d[k] = v`: replace in place if the key exists, else append. -/
def dinsert : Dict → String → Value → Dict
  | [], k, v => [(k, v)]
  | (k0, v0) :: rest, k, v =>
    if k0 = k then (k0, v) :: rest else (k0, v0) :: dinsert rest k v

/-- Python `d.update(other)`. -/
def dupdate (d other : Dict) : Dict :=
  other.foldl (fun acc kv => dinsert acc kv.1 kv.2) d

/-- The keys of a dict, in order. -/
def dictKeys (d : Dict) : List String := d.map Prod.fst

/-- One row of the `audit_log` table.  `old_value` / `new_value` are the
stored TEXT columns decoded: `none` is SQL NULL. -/
structure ChangeRecord where
  id : Nat
  entity_type : String
  entity_id : Int
  action : String
  old_value : Option Dict
  new_value : Option Dict
  timestamp : String
deriving DecidableEq, Repr

/-- The backend database: the append-only `audit_log` (with its
`AUTOINCREMENT` counter) plus the four live tables that
`restore_entity`'s `table_map` can reach. -/
structure DB where
  nextId : Nat
  rows : List ChangeRecord
  tasks : List Dict
  columns : List Dict
  monitors : List Dict
  incidents : List Dict
deriving DecidableEq, Repr

/-- A database with an empty log and empty live tables. -/
def emptyDB : DB := ⟨1, [], [], [], [], []⟩

/-- `json.dumps(v) if v else None` in `log_action`: Python truthiness makes
the empty dict indistinguishable from `None`, so `{}` is stored as NULL. -/
def storeSnap : Option Dict → Option Dict
  | none => none
  | some d => if d = [] then none else some d

/-- `audit_service.log_action`: append one row to `audit_log` with a fresh
id and the server timestamp `now`, and return the new row's id.  The
snapshots pass through `storeSnap` (the `if old_value` / `if new_value`
truthiness tests around `json.dumps`). -/
def log_action (db : DB) (et : String) (eid : Int) (act : String)
    (ov nv : Option Dict) (now : String) : DB × Nat :=
  let r : ChangeRecord :=
    { id := db.nextId, entity_type := et, entity_id := eid, action := act,
      old_value := storeSnap ov, new_value := storeSnap nv, timestamp := now }
  ({ db with nextId := db.nextId + 1, rows := db.rows ++ [r] }, db.nextId)

/-- The WHERE clause `entity_type = ? AND entity_id = ?`. -/
def rowMatches (et : String) (eid : Int) (r : ChangeRecord) : Bool :=
  r.entity_type == et && r.entity_id == eid

/-- The WHERE clause of `get_state_at`, including `timestamp <= ?`. -/
def rowMatchesAt (et : String) (eid : Int) (ts : String) (r : ChangeRecord) : Bool :=
  rowMatches et eid r && tsLe r.timestamp ts

/-- `ORDER BY timestamp DESC LIMIT 1` over a rowid-ordered scan: the first
row (leftmost in insertion order) whose timestamp is maximal.  There is no
`id` tiebreaker in the SQL, and SQLite keeps the earliest row on ties. -/
def selectLatest : List ChangeRecord → Option ChangeRecord
  | [] => none
  | r :: rs =>
    match selectLatest rs with
    | none => some r
    | some b => if tsLt r.timestamp b.timestamp then some b else some r

/-- The single-row query of `get_state_at`. -/
def selectLatestAtMost (rows : List ChangeRecord) (et : String) (eid : Int)
    (ts : String) : Option ChangeRecord :=
  selectLatest (rows.filter (rowMatchesAt et eid ts))

/-- The tombstone decoration of `get_state_at`'s delete branch:
`state["_deleted"] = True; state["_deleted_at"] = row["timestamp"]`. -/
def markDeleted (st : Dict) (ts : String) : Dict :=
  dinsert (dinsert st "_deleted" (.bool true)) "_deleted_at" (.str ts)

/-- `EventStore.get_state_at`: reconstruct the state at `ts` from the single
most recent record at or before `ts`.  For a `delete` record the last known
state (`old_value`) is returned with the tombstone marker (the `if state:`
truthiness test skips the marker when the decoded dict is empty); otherwise
`new_value` is returned verbatim (NULL decoding to `None`). -/
def get_state_at (rows : List ChangeRecord) (et : String) (eid : Int)
    (ts : String) : Option Dict :=
  match selectLatestAtMost rows et eid ts with
  | none => none
  | some r =>
    if r.action = "delete" then
      match r.old_value with
      | none => none
      | some st => some (if st = [] then st else markDeleted st r.timestamp)
    else r.new_value

/-- `EventStore.get_entity_history`: all records of one entity,
`ORDER BY timestamp ASC` (stable on ties, rowid order). -/
def get_entity_history (rows : List ChangeRecord) (et : String) (eid : Int) :
    List ChangeRecord :=
  List.insertionSort (fun a b => tsLe a.timestamp b.timestamp = true)
    (rows.filter (rowMatches et eid))

/-- One step of `EventStore.replay_events`'s fold: `create` replaces the
running state wholesale (`new_value or` the empty dict), `update` merges
`new_value` into it (the `if event` truthiness guard is the identity for an
empty dict, so `dupdate` covers it exactly), `delete` sets the `_deleted`
key, and every other action label leaves the state untouched. -/
def replayStep (state : Dict) (r : ChangeRecord) : Dict :=
  if r.action = "create" then r.new_value.getD []
  else if r.action = "update" then
    match r.new_value with
    | some nv => dupdate state nv
    | none => state
  else if r.action = "delete" then dinsert state "_deleted" (.bool true)
  else state

/-- The generator loop of `replay_events`: walk the history, stopping before
the first record past `untilTs` (`if until and event.timestamp > until:
break`, with Python's falsy empty string), and yield each record with the
state after it. -/
def replayGo (untilTs : Option String) : Dict → List ChangeRecord →
    List (ChangeRecord × Dict)
  | _, [] => []
  | state, r :: rest =>
    if (match untilTs with
        | some u => !(u == "") && tsLt u r.timestamp
        | none => false) then []
    else
      let st := replayStep state r
      (r, st) :: replayGo untilTs st rest

/-- `EventStore.replay_events`: fold the entity's full ordered history from
the empty state. -/
def replay_events (rows : List ChangeRecord) (et : String) (eid : Int)
    (untilTs : Option String) : List (ChangeRecord × Dict) :=
  replayGo untilTs [] (get_entity_history rows et eid)

/-- Python `if not state:` for an optional decoded dict (`None` or `{}`). -/
def falsyState : Option Dict → Bool
  | none => true
  | some d => d.isEmpty

/-- The result dict of `diff_states`: either the not-found error payload or
the full payload, of which we keep the two states and the `changes` map
(the echoed inputs carry no information). -/
inductive DiffResult where
  | errorNotFound : DiffResult
  | ok : Option Dict → Option Dict → List (String × Option Value × Option Value) → DiffResult
deriving DecidableEq, Repr

/-- The `changes` loop of `diff_states`: over the union of the key sets,
keep `(key, from, to)` whenever the two values differ.  (Python iterates a
`set`; the change map is a dict keyed by field, so only its key-value
content is observable.) -/
def diffChanges (s1 s2 : Dict) : List (String × Option Value × Option Value) :=
  ((dictKeys s1 ++ dictKeys s2).dedup).filterMap fun k =>
    let v1 := dget s1 k
    let v2 := dget s2 k
    if v1 = v2 then none else some (k, v1, v2)

/-- `EventStore.diff_states`: reconstruct at both timestamps; error when the
entity is falsy at both (`if not state1 and not state2`), else compare
field-by-field with `(state or {}).get(key)` access. -/
def diff_states (rows : List ChangeRecord) (et : String) (eid : Int)
    (t1 t2 : String) : DiffResult :=
  let s1 := get_state_at rows et eid t1
  let s2 := get_state_at rows et eid t2
  if falsyState s1 && falsyState s2 then .errorNotFound
  else .ok s1 s2 (diffChanges (s1.getD []) (s2.getD []))

/-- The hard-coded `table_map` of `restore_entity`. -/
def table_map : String → Option String
  | "task" => some "tasks"
  | "column" => some "columns"
  | "monitor" => some "monitors"
  | "incident" => some "incidents"
  | _ => none

/-- Read one of the four live tables by name. -/
def readTable (db : DB) : String → List Dict
  | "tasks" => db.tasks
  | "columns" => db.columns
  | "monitors" => db.monitors
  | "incidents" => db.incidents
  | _ => []

/-- Write back one of the four live tables by name. -/
def writeTable (db : DB) (tbl : String) (rows : List Dict) : DB :=
  match tbl with
  | "tasks" => { db with tasks := rows }
  | "columns" => { db with columns := rows }
  | "monitors" => { db with monitors := rows }
  | "incidents" => { db with incidents := rows }
  | _ => db

/-- `SELECT * FROM {table} WHERE id = ?` followed by `fetchone()`. -/
def findRow (table : List Dict) (eid : Int) : Option Dict :=
  table.find? fun row => dget row "id" == some (.int eid)

/-- `UPDATE {table} SET f1 = ?, ... WHERE id = ?`: merge the non-`id`
restored fields into every row whose `id` matches. -/
def updateRows (table : List Dict) (eid : Int) (rd : Dict) : List Dict :=
  table.map fun row =>
    if dget row "id" == some (.int eid) then
      dupdate row (rd.filter fun kv => !(kv.1 == "id"))
    else row

/-- Python `k.startswith("_")`: the key's first character is an
underscore. -/
def keyInternal (k : String) : Bool :=
  match k.data with
  | c :: _ => c == '_'
  | [] => false

/-- `restore_entity` strips keys starting with an underscore:
`{k: v for k, v in target_state.items() if not k.startswith("_")}`. -/
def stripInternal (st : Dict) : Dict :=
  st.filter fun kv => !(keyInternal kv.1)

/-- The typed outcomes of `restore_entity` (the shapes of the returned
dict, plus the exception raised by the malformed SQL built from an empty
field list). -/
inductive RestoreResult where
  | notFoundAtTime : RestoreResult
  | wasDeleted : Dict → RestoreResult
  | unknownType : String → RestoreResult
  | sqlError : RestoreResult
  | ok : Dict → RestoreResult
deriving DecidableEq, Repr

/-- Outcome of the first database transaction of `restore_entity`. -/
inductive Phase1Out where
  | fail : RestoreResult → Phase1Out
  | good : Dict → Option Dict → Phase1Out
deriving DecidableEq, Repr

/-- Everything `restore_entity` does up to and including its own
`conn.commit()`: reconstruct the target state, refuse falsy / tombstoned
targets and unknown entity types, strip internal fields, then update or
re-insert the live row.  Returns the restored fields and the prior live row
(`dict(exists)`), alongside the committed database.  The audit append is
*not* part of this transaction — it runs afterwards on a fresh connection
(see `restore_entity`). -/
def restore_phase1 (db : DB) (et : String) (eid : Int) (toTs : String) :
    Phase1Out × DB :=
  match get_state_at db.rows et eid toTs with
  | none => (.fail .notFoundAtTime, db)
  | some st =>
    if st = [] then (.fail .notFoundAtTime, db)
    else if optTruthy (dget st "_deleted") then (.fail (.wasDeleted st), db)
    else
      let rd := stripInternal st
      match table_map et with
      | none => (.fail (.unknownType et), db)
      | some tbl =>
        let table := readTable db tbl
        match findRow table eid with
        | some prior =>
          if (rd.filter fun kv => !(kv.1 == "id")) = [] then (.fail .sqlError, db)
          else (.good rd (some prior), writeTable db tbl (updateRows table eid rd))
        | none =>
          if rd = [] then (.fail .sqlError, db)
          else (.good rd none, writeTable db tbl (table ++ [rd]))

/-- `EventStore.restore_entity`: the committed live-table transaction
(`restore_phase1`), then — on a separate connection, in a separate
transaction — `audit_service.log_action(..., "restore", old_value =
dict(exists) or None, new_value = restore_data)` stamped `now`. -/
def restore_entity (db : DB) (et : String) (eid : Int) (toTs now : String) :
    RestoreResult × DB :=
  match restore_phase1 db et eid toTs with
  | (.fail r, db1) => (r, db1)
  | (.good rd prior, db1) =>
    (.ok rd, (log_action db1 et eid "restore" prior (some rd) now).1)

/-- `EventStore.get_activity_feed`: the most recent records, newest first
(`ORDER BY timestamp DESC`, stable on ties), optionally filtered by entity
types (an empty filter list is falsy and ignored), truncated to `limit`.
The display-only summary sentence is not modelled. -/
def get_activity_feed (db : DB) (limit : Nat)
    (etypes : Option (List String)) : List ChangeRecord :=
  let base :=
    match etypes with
    | some ts => if ts.isEmpty then db.rows
                 else db.rows.filter fun r => ts.contains r.entity_type
    | none => db.rows
  (List.insertionSort (fun a b => tsLe b.timestamp a.timestamp = true) base).take limit

/-! ## Definitions taken from the specification's words

Used only to compare the spec's description against the implemented
queries (refinement comparison); everything above is from the source. -/

/-- The selection rule as §4.2 of the spec words it: order by
`(timestamp desc, id desc)`, so that on equal timestamps the record with
the *larger* id deterministically wins. -/
def selectLatestSpecOrder : List ChangeRecord → Option ChangeRecord
  | [] => none
  | r :: rs =>
    match selectLatestSpecOrder rs with
    | none => some r
    | some b =>
      if tsLt r.timestamp b.timestamp then some b
      else if tsLt b.timestamp r.timestamp then some r
      else if r.id < b.id then some b else some r

/-- State reconstruction as the spec words it: the same action semantics as
`get_state_at`, but over the spec's `(timestamp desc, id desc)` ordering. -/
def get_state_at_spec (rows : List ChangeRecord) (et : String) (eid : Int)
    (ts : String) : Option Dict :=
  match selectLatestSpecOrder (rows.filter (rowMatchesAt et eid ts)) with
  | none => none
  | some r =>
    if r.action = "delete" then
      match r.old_value with
      | none => none
      | some st => some (if st = [] then st else markDeleted st r.timestamp)
    else r.new_value

/-- One replay step as the claim words it: `update` *and every
domain-specific action* merge `new_value` into the running state. -/
def replayStepClaim (state : Dict) (r : ChangeRecord) : Dict :=
  if r.action = "create" then r.new_value.getD []
  else if r.action = "delete" then dinsert state "_deleted" (.bool true)
  else
    match r.new_value with
    | some nv => dupdate state nv
    | none => state

/-! ## Concrete logs and databases used by counterexamples and witnesses -/

/-- Two records for the same entity carrying the same timestamp. -/
def rowsTie : List ChangeRecord :=
  [⟨1, "task", 1, "create", none, some [("a", .int 1)], "t"⟩,
   ⟨2, "task", 1, "update", some [("a", .int 1)], some [("a", .int 2)], "t"⟩]

/-- A history containing two `delete` records. -/
def rowsTwoDeletes : List ChangeRecord :=
  [⟨1, "task", 1, "delete", some [("a", .int 1)], none, "b"⟩,
   ⟨2, "task", 1, "delete", some [("a", .int 2)], none, "d"⟩]

/-- A history whose second record carries a domain-specific action label. -/
def rowsMove : List ChangeRecord :=
  [⟨1, "task", 1, "create", none, some [("a", .int 1)], "1"⟩,
   ⟨2, "task", 1, "move", some [("a", .int 1)], some [("a", .int 2)], "2"⟩]

/-- A database in which the entity's latest record shares its timestamp
with the moment a restore is issued. -/
def dbTieRestore : DB :=
  { nextId := 3,
    rows := [⟨1, "task", 1, "create", none, some [("t", .str "A")], "1"⟩,
             ⟨2, "task", 1, "update", some [("t", .str "A")], some [("t", .str "B")], "5"⟩],
    tasks := [[("id", .int 1), ("t", .str "B")]],
    columns := [], monitors := [], incidents := [] }

/-- A database with one `create` record and a live task row, used to
observe the two separate transactions of `restore_entity`. -/
def dbLive : DB :=
  { nextId := 2,
    rows := [⟨1, "task", 1, "create", none, some [("t", .str "A")], "1"⟩],
    tasks := [[("id", .int 1), ("t", .str "B")]],
    columns := [], monitors := [], incidents := [] }

/-- A database holding a single tombstoned entity. -/
def dbDeleted : DB :=
  { nextId := 3,
    rows := [⟨1, "task", 1, "create", none, some [("t", .str "A")], "1"⟩,
             ⟨2, "task", 1, "delete", some [("t", .str "A")], none, "2"⟩],
    tasks := [], columns := [], monitors := [], incidents := [] }

/-! ## Helper lemmas -/

theorem selectLatest_mem : ∀ {rs : List ChangeRecord} {b : ChangeRecord},
    selectLatest rs = some b → b ∈ rs := by
  intro rs
  induction rs with
  | nil => intro b h; simp [selectLatest] at h
  | cons r rest ih =>
    intro b h
    unfold selectLatest at h
    rcases hrec : selectLatest rest with _ | bb
    · rw [hrec] at h
      simp at h
      simp [h]
    · rw [hrec] at h
      dsimp only at h
      by_cases hlt : tsLt r.timestamp bb.timestamp = true
      · rw [if_pos hlt] at h
        obtain rfl : bb = b := by simpa using h
        exact List.mem_cons_of_mem r (ih hrec)
      · rw [if_neg hlt] at h
        obtain rfl : r = b := by simpa using h
        exact List.mem_cons_self r rest

theorem selectLatest_cons_max {post : List ChangeRecord} {r : ChangeRecord}
    (hpost : ∀ x ∈ post, tsLe x.timestamp r.timestamp = true) :
    selectLatest (r :: post) = some r := by
  unfold selectLatest
  rcases hrec : selectLatest post with _ | b
  · rfl
  · have hb : tsLe b.timestamp r.timestamp = true := hpost b (selectLatest_mem hrec)
    have hf : tsLt r.timestamp b.timestamp = false := by
      unfold tsLe at hb
      exact Bool.not_eq_true' .. |>.mp hb
    dsimp only
    rw [hf]
    rfl

theorem selectLatest_split (pre : List ChangeRecord) (r : ChangeRecord)
    (post : List ChangeRecord)
    (hpre : ∀ x ∈ pre, tsLt x.timestamp r.timestamp = true)
    (hpost : ∀ x ∈ post, tsLe x.timestamp r.timestamp = true) :
    selectLatest (pre ++ r :: post) = some r := by
  induction pre with
  | nil => exact selectLatest_cons_max hpost
  | cons x rest ih =>
    have hrest : selectLatest (rest ++ r :: post) = some r :=
      ih fun y hy => hpre y (List.mem_cons_of_mem x hy)
    have hx : tsLt x.timestamp r.timestamp = true :=
      hpre x (List.mem_cons_self x rest)
    show selectLatest (x :: (rest ++ r :: post)) = some r
    unfold selectLatest
    rw [hrest]
    dsimp only
    rw [hx]
    rfl

theorem selectLatestAtMost_append_fresh (rows : List ChangeRecord)
    (r : ChangeRecord) (et : String) (eid : Int) (qt : String)
    (hr : rowMatchesAt et eid qt r = true)
    (hfresh : ∀ x ∈ rows, rowMatches et eid x = true →
        tsLt x.timestamp r.timestamp = true) :
    selectLatestAtMost (rows ++ [r]) et eid qt = some r := by
  unfold selectLatestAtMost
  rw [List.filter_append]
  have hfr : List.filter (rowMatchesAt et eid qt) [r] = [r] := by
    simp [hr]
  rw [hfr]
  refine selectLatest_split _ r [] ?_ (by simp)
  intro x hx
  rw [List.mem_filter] at hx
  exact hfresh x hx.1 ((Bool.and_eq_true ..).mp hx.2).1

theorem dget_dinsert_self (d : Dict) (k : String) (v : Value) :
    dget (dinsert d k v) k = some v := by
  induction d with
  | nil => simp [dinsert, dget]
  | cons kv rest ih =>
    rcases kv with ⟨k0, v0⟩
    by_cases h : k0 = k
    · subst h
      simp [dinsert, dget]
    · simp only [dinsert, if_neg h, dget]
      exact ih

theorem dget_dinsert_ne (d : Dict) (k k' : String) (v : Value) (h : k' ≠ k) :
    dget (dinsert d k v) k' = dget d k' := by
  have h' : ¬ k = k' := fun hh => h hh.symm
  induction d with
  | nil => simp [dinsert, dget, h']
  | cons kv rest ih =>
    rcases kv with ⟨k0, v0⟩
    by_cases h0 : k0 = k
    · subst h0
      simp [dinsert, dget, h']
    · simp only [dinsert, if_neg h0, dget]
      by_cases h1 : k0 = k'
      · rw [if_pos h1, if_pos h1]
      · rw [if_neg h1, if_neg h1]
        exact ih

theorem diffChanges_self (d : Dict) : diffChanges d d = [] := by
  unfold diffChanges
  rw [List.filterMap_eq_nil_iff]
  intro k _
  simp

theorem writeTable_rows (db : DB) (tbl : String) (t : List Dict) :
    (writeTable db tbl t).rows = db.rows ∧ (writeTable db tbl t).nextId = db.nextId := by
  unfold writeTable
  split <;> exact ⟨rfl, rfl⟩

theorem restore_phase1_preserves (db : DB) (et : String) (eid : Int) (toTs : String) :
    (restore_phase1 db et eid toTs).2.rows = db.rows
      ∧ (restore_phase1 db et eid toTs).2.nextId = db.nextId := by
  simp only [restore_phase1]
  repeat' split
  all_goals first
    | exact ⟨rfl, rfl⟩
    | exact writeTable_rows ..

/-! ## Claims -/

/-- C1 (counterexample).  The round trip fails for the non-null empty
snapshot: `log_action` stores the falsy `{}` as NULL, so an immediate
`get_state_at` returns not-found rather than the `after` snapshot that was
passed in. -/
theorem c1_counterexample :
    get_state_at ((log_action emptyDB "task" 1 "create" none (some []) "t").1).rows
        "task" 1 "t" = none
      ∧ (none : Option Dict) ≠ some [] := by
  constructor
  · decide
  · decide

/-- C1 (amended).  Appending a `create` whose `after` snapshot is
*non-empty*, with a timestamp strictly later than every existing record of
the entity, and then calling `get_state_at` at any time at or after that
timestamp, returns exactly the `after` snapshot. -/
theorem c1_roundtrip (db : DB) (et : String) (eid : Int) (after : Dict)
    (now qt : String)
    (hne : after ≠ [])
    (hfresh : ∀ x ∈ db.rows, rowMatches et eid x = true →
        tsLt x.timestamp now = true)
    (hq : tsLe now qt = true) :
    get_state_at ((log_action db et eid "create" none (some after) now).1).rows
      et eid qt = some after := by
  have hrows : ((log_action db et eid "create" none (some after) now).1).rows
      = db.rows ++ [⟨db.nextId, et, eid, "create", none, storeSnap (some after), now⟩] := rfl
  have hr : rowMatchesAt et eid qt
      ⟨db.nextId, et, eid, "create", none, storeSnap (some after), now⟩ = true := by
    simp [rowMatchesAt, rowMatches, hq]
  have hsel := selectLatestAtMost_append_fresh db.rows
    ⟨db.nextId, et, eid, "create", none, storeSnap (some after), now⟩ et eid qt hr hfresh
  unfold get_state_at
  rw [hrows, hsel]
  simp [storeSnap, hne]

/-- C1 (witness). -/
theorem c1_roundtrip_witness :
    get_state_at ((log_action emptyDB "task" 1 "create" none
        (some [("title", Value.str "A")]) "t1").1).rows "task" 1 "t1"
      = some [("title", Value.str "A")] :=
  c1_roundtrip emptyDB "task" 1 [("title", Value.str "A")] "t1" "t1"
    (by decide) (by decide) (by decide)

/-- C2 (counterexample).  The implemented query orders by `timestamp DESC`
only; on the two-record tie `rowsTie` it returns the *earlier* record
(id 1), whereas the spec's `(timestamp desc, id desc)` rule would return
the later one (id 2), so the tie is not broken in favour of the larger
id. -/
theorem c2_counterexample :
    get_state_at rowsTie "task" 1 "t" = some [("a", Value.int 1)]
      ∧ get_state_at_spec rowsTie "task" 1 "t" = some [("a", Value.int 2)]
      ∧ get_state_at rowsTie "task" 1 "t" ≠ get_state_at_spec rowsTie "task" 1 "t" := by
  refine ⟨by decide, by decide, by decide⟩

/-- C2 (amended).  `get_state_at`'s query selects the single record for
the entity with `timestamp <= target` whose timestamp is maximal; when
several matching records share the maximal timestamp, the *earliest
inserted* one (first in table-scan order) wins — there is no id
tiebreaker. -/
theorem c2_selection (rows pre post : List ChangeRecord) (r : ChangeRecord)
    (et : String) (eid : Int) (ts : String)
    (hsplit : rows.filter (rowMatchesAt et eid ts) = pre ++ r :: post)
    (hpre : ∀ x ∈ pre, tsLt x.timestamp r.timestamp = true)
    (hpost : ∀ x ∈ post, tsLe x.timestamp r.timestamp = true) :
    selectLatestAtMost rows et eid ts = some r := by
  unfold selectLatestAtMost
  rw [hsplit]
  exact selectLatest_split pre r post hpre hpost

/-- C2 (witness). -/
theorem c2_selection_witness :
    selectLatestAtMost rowsTie "task" 1 "t"
      = some ⟨1, "task", 1, "create", none, some [("a", Value.int 1)], "t"⟩ :=
  c2_selection rowsTie []
    [⟨2, "task", 1, "update", some [("a", Value.int 1)], some [("a", Value.int 2)], "t"⟩]
    ⟨1, "task", 1, "create", none, some [("a", Value.int 1)], "t"⟩
    "task" 1 "t" (by decide) (by decide) (by decide)

/-- C10.  A snapshot passed to `log_action` as the empty map is stored as
NULL (`storeSnap`), and when the freshly appended record (with a timestamp
past every earlier record of the entity) is the most recent one at the
query time and its action is not `delete`, `get_state_at` returns
not-found even though the record exists and is selected. -/
theorem c10_empty_snapshot (db : DB) (et : String) (eid : Int) (act : String)
    (now qt : String)
    (hact : act ≠ "delete")
    (hfresh : ∀ x ∈ db.rows, rowMatches et eid x = true →
        tsLt x.timestamp now = true)
    (hq : tsLe now qt = true) :
    storeSnap (some ([] : Dict)) = none
      ∧ selectLatestAtMost ((log_action db et eid act (some []) (some []) now).1).rows
          et eid qt = some ⟨db.nextId, et, eid, act, none, none, now⟩
      ∧ get_state_at ((log_action db et eid act (some []) (some []) now).1).rows
          et eid qt = none := by
  have hrows : ((log_action db et eid act (some []) (some []) now).1).rows
      = db.rows ++ [⟨db.nextId, et, eid, act, none, none, now⟩] := rfl
  have hr : rowMatchesAt et eid qt ⟨db.nextId, et, eid, act, none, none, now⟩ = true := by
    simp [rowMatchesAt, rowMatches, hq]
  have hsel := selectLatestAtMost_append_fresh db.rows
    ⟨db.nextId, et, eid, act, none, none, now⟩ et eid qt hr hfresh
  refine ⟨rfl, by rw [hrows]; exact hsel, ?_⟩
  unfold get_state_at
  rw [hrows, hsel]
  simp [hact]

/-- C10 (witness). -/
theorem c10_empty_snapshot_witness :
    storeSnap (some ([] : Dict)) = none
      ∧ selectLatestAtMost ((log_action emptyDB "task" 1 "create" (some []) (some []) "t").1).rows
          "task" 1 "t" = some ⟨1, "task", 1, "create", none, none, "t"⟩
      ∧ get_state_at ((log_action emptyDB "task" 1 "create" (some []) (some []) "t").1).rows
          "task" 1 "t" = none :=
  c10_empty_snapshot emptyDB "task" 1 "create" "t" "t"
    (by decide) (by decide) (by decide)

/-- C3 (counterexample).  On the history `rowsTwoDeletes` the query time
`"c"` is strictly before the delete record stamped `"d"`, yet the state
returned by `get_state_at` *does* carry the `_deleted` marker (it comes
from the earlier delete stamped `"b"`), refuting the claim's second
part as universally stated. -/
theorem c3_counterexample :
    tsLt "c" "d" = true
      ∧ (⟨2, "task", 1, "delete", some [("a", Value.int 2)], none, "d"⟩ : ChangeRecord)
          ∈ rowsTwoDeletes
      ∧ get_state_at rowsTwoDeletes "task" 1 "c"
          = some [("a", Value.int 1), ("_deleted", Value.bool true),
                  ("_deleted_at", Value.str "b")]
      ∧ dget [("a", Value.int 1), ("_deleted", Value.bool true),
              ("_deleted_at", Value.str "b")] "_deleted"
          = some (Value.bool true) := by
  refine ⟨by decide, by decide, by decide, by decide⟩

/-- C3 (amended).  Whatever record the state-at query selects as most
recent: if it is a `delete` with a non-empty `before` snapshot, the
snapshot is returned with the `_deleted` marker set; if it is not a
`delete`, its `after` snapshot is returned verbatim, and in that case the
result carries no `_deleted` marker provided the snapshot itself does not
contain one (so a time strictly before the *only* delete is marker-free,
but an earlier delete record can still produce a marker). -/
theorem c3_tombstone (rows : List ChangeRecord) (et : String) (eid : Int)
    (qt : String) (r : ChangeRecord)
    (hsel : selectLatestAtMost rows et eid qt = some r) :
    (r.action = "delete" → ∀ st, r.old_value = some st → st ≠ [] →
        get_state_at rows et eid qt = some (markDeleted st r.timestamp)
          ∧ dget (markDeleted st r.timestamp) "_deleted" = some (.bool true))
      ∧ (r.action ≠ "delete" → get_state_at rows et eid qt = r.new_value)
      ∧ (r.action ≠ "delete" →
          (∀ st, r.new_value = some st → dget st "_deleted" = none) →
          ∀ s, get_state_at rows et eid qt = some s → dget s "_deleted" = none) := by
  have hg : get_state_at rows et eid qt =
      (if r.action = "delete" then
        match r.old_value with
        | none => none
        | some st => some (if st = [] then st else markDeleted st r.timestamp)
      else r.new_value) := by
    unfold get_state_at
    rw [hsel]
  refine ⟨?_, ?_, ?_⟩
  · intro hd st hov hne
    rw [hg, if_pos hd, hov]
    refine ⟨by simp [hne], ?_⟩
    unfold markDeleted
    rw [dget_dinsert_ne _ _ _ _ (by decide), dget_dinsert_self]
  · intro hd
    rw [hg, if_neg hd]
  · intro hd hclean s hs
    rw [hg, if_neg hd] at hs
    exact hclean s hs

/-- C3 (witness). -/
theorem c3_tombstone_witness :
    get_state_at dbDeleted.rows "task" 1 "3"
        = some (markDeleted [("t", Value.str "A")] "2")
      ∧ dget (markDeleted [("t", Value.str "A")] "2") "_deleted"
        = some (Value.bool true) :=
  (c3_tombstone dbDeleted.rows "task" 1 "3"
      ⟨2, "task", 1, "delete", some [("t", Value.str "A")], none, "2"⟩
      (by decide)).1 rfl [("t", Value.str "A")] rfl (by decide)

/-- C4 (counterexample).  `replay_events` does *not* fold the `move`
record of `rowsMove` into the running state — the state after the `move`
still holds the `create` snapshot — whereas the claim's fold
(`replayStepClaim`, merging every domain-specific action) would produce
the `move` snapshot. -/
theorem c4_counterexample :
    (replay_events rowsMove "task" 1 none).map Prod.snd
        = [[("a", Value.int 1)], [("a", Value.int 1)]]
      ∧ replayStepClaim [("a", Value.int 1)]
          ⟨2, "task", 1, "move", some [("a", Value.int 1)], some [("a", Value.int 2)], "2"⟩
        = [("a", Value.int 2)]
      ∧ (replay_events rowsMove "task" 1 none).map Prod.snd
        ≠ [[("a", Value.int 1)], [("a", Value.int 2)]] := by
  refine ⟨by decide, by decide, by decide⟩

/-- C4 (amended).  The replay fold starts from the empty state and walks
the ordered history: a `create` record replaces the running state
wholesale, a literal `update` record merges its `after` fields in, a
`delete` record sets the `_deleted` marker without clearing any other
field, and every *other* action label (the domain-specific ones such as
`move`, `acknowledge`, `resolve`) leaves the running state unchanged. -/
theorem c4_replay_fold (st : Dict) (r : ChangeRecord) :
    (r.action = "create" → replayStep st r = r.new_value.getD [])
      ∧ (r.action = "update" →
          replayStep st r = match r.new_value with
            | some nv => dupdate st nv
            | none => st)
      ∧ (r.action = "delete" →
          replayStep st r = dinsert st "_deleted" (.bool true)
            ∧ ∀ k, k ≠ "_deleted" → dget (replayStep st r) k = dget st k)
      ∧ (r.action ≠ "create" → r.action ≠ "update" → r.action ≠ "delete" →
          replayStep st r = st)
      ∧ ∀ (rows : List ChangeRecord) (et : String) (eid : Int) (u : Option String),
          replay_events rows et eid u = replayGo u [] (get_entity_history rows et eid) := by
  refine ⟨?_, ?_, ?_, ?_, fun _ _ _ _ => rfl⟩
  · intro h
    unfold replayStep
    rw [if_pos h]
  · intro h
    unfold replayStep
    rw [if_neg (by rw [h]; decide), if_pos h]
  · intro h
    have hstep : replayStep st r = dinsert st "_deleted" (.bool true) := by
      unfold replayStep
      rw [if_neg (by rw [h]; decide), if_neg (by rw [h]; decide), if_pos h]
    refine ⟨hstep, fun k hk => ?_⟩
    rw [hstep]
    exact dget_dinsert_ne st "_deleted" k (.bool true) hk
  · intro h1 h2 h3
    unfold replayStep
    rw [if_neg h1, if_neg h2, if_neg h3]

/-- C4 (witness). -/
theorem c4_replay_fold_witness :
    replayStep [] ⟨1, "task", 1, "create", none, some [("a", Value.int 1)], "1"⟩
      = [("a", Value.int 1)] :=
  (c4_replay_fold [] ⟨1, "task", 1, "create", none, some [("a", Value.int 1)], "1"⟩).1 rfl

/-- C5.  When the reconstructed state at the target time carries a truthy
`_deleted` marker, `restore_entity` returns the was-deleted failure with
the tombstoned state and leaves the entire database — the change log and
every live table — exactly as it was: no mutation, no appended record. -/
theorem c5_refuse_tombstone (db : DB) (et : String) (eid : Int)
    (toTs now : String) (st : Dict)
    (hstate : get_state_at db.rows et eid toTs = some st)
    (hdel : optTruthy (dget st "_deleted") = true) :
    restore_entity db et eid toTs now = (RestoreResult.wasDeleted st, db) := by
  have hne : ¬ st = [] := by
    intro h
    subst h
    simp [dget, optTruthy] at hdel
  have hphase : restore_phase1 db et eid toTs = (.fail (.wasDeleted st), db) := by
    unfold restore_phase1
    rw [hstate]
    dsimp only
    rw [if_neg hne, if_pos hdel]
  unfold restore_entity
  rw [hphase]

/-- C5 (witness). -/
theorem c5_refuse_tombstone_witness :
    restore_entity dbDeleted "task" 1 "3" "4"
      = (RestoreResult.wasDeleted (markDeleted [("t", Value.str "A")] "2"), dbDeleted) :=
  c5_refuse_tombstone dbDeleted "task" 1 "3" "4"
    (markDeleted [("t", Value.str "A")] "2") (by decide) (by decide)

/-- C7 (code bug).  The live-table write of `restore_entity` is committed
by its own connection (`restore_phase1`, ending in `conn.commit()`)
*before* the audit append runs on a second connection inside
`audit_service.log_action`.  On `dbLive` the state after the first commit
already has the mutated task row while the change log is untouched, so a
failure of the append (or a crash between the two commits) leaves the
live table updated without a corresponding `restore` record — the three
steps are not one atomic unit. -/
theorem c7_nonatomic_restore :
    (restore_phase1 dbLive "task" 1 "1").2.tasks ≠ dbLive.tasks
      ∧ (restore_phase1 dbLive "task" 1 "1").2.rows = dbLive.rows
      ∧ (restore_entity dbLive "task" 1 "1" "2").2.rows
          = dbLive.rows ++ [⟨2, "task", 1, "restore",
              some [("id", Value.int 1), ("t", Value.str "B")],
              some [("t", Value.str "A")], "2"⟩]
      ∧ (restore_entity dbLive "task" 1 "1" "2").2.tasks
          = (restore_phase1 dbLive "task" 1 "1").2.tasks := by
  refine ⟨by decide, by decide, by decide, by decide⟩

/-- C8.  The only mutations any operation performs on the change log are
appends: `log_action` extends the log by exactly its one new record, and
`restore_entity` leaves the log unchanged (every failure branch) or
extends it by exactly one record.  The query operations
(`get_entity_history`, `get_state_at`, `diff_states`, `replay_events`,
`get_activity_feed`) are SELECT-only and are modelled as pure functions of
the database, so they cannot touch the log at all. -/
theorem c8_append_only (db : DB) (et : String) (eid : Int) (act : String)
    (ov nv : Option Dict) (now toTs : String) :
    ((log_action db et eid act ov nv now).1).rows
        = db.rows ++ [⟨db.nextId, et, eid, act, storeSnap ov, storeSnap nv, now⟩]
      ∧ ((restore_entity db et eid toTs now).2.rows = db.rows
          ∨ ∃ r, (restore_entity db et eid toTs now).2.rows = db.rows ++ [r]) := by
  refine ⟨rfl, ?_⟩
  have hp := restore_phase1_preserves db et eid toTs
  rcases hq : restore_phase1 db et eid toTs with ⟨out, db1⟩
  rw [hq] at hp
  cases out with
  | fail r =>
    left
    unfold restore_entity
    rw [hq]
    exact hp.1
  | good rd prior =>
    right
    refine ⟨⟨db1.nextId, et, eid, "restore", storeSnap prior, storeSnap (some rd), now⟩, ?_⟩
    unfold restore_entity
    rw [hq]
    have hl : (log_action db1 et eid "restore" prior (some rd) now).1.rows
        = db1.rows ++ [⟨db1.nextId, et, eid, "restore", storeSnap prior,
            storeSnap (some rd), now⟩] := rfl
    show (log_action db1 et eid "restore" prior (some rd) now).1.rows = _
    rw [hl, hp.1]

/-- C9 (counterexample).  For an entity with no truthy state at `t` —
here an empty log — `diff_states` with `t1 = t2 = t` returns the
never-existed error payload, not an empty field-change map. -/
theorem c9_counterexample :
    diff_states [] "task" 1 "t" "t" = DiffResult.errorNotFound
      ∧ DiffResult.errorNotFound ≠ DiffResult.ok none none [] := by
  refine ⟨by decide, by decide⟩

/-- C9 (amended).  `diff_states` at equal timestamps either signals the
never-existed error (when the entity has no truthy state there) or
returns the two identical states with an *empty* change map. -/
theorem c9_diff_idempotent (rows : List ChangeRecord) (et : String)
    (eid : Int) (t : String) :
    diff_states rows et eid t t = DiffResult.errorNotFound
      ∨ ∃ s, diff_states rows et eid t t = DiffResult.ok s s [] := by
  simp only [diff_states]
  by_cases h : (falsyState (get_state_at rows et eid t)
      && falsyState (get_state_at rows et eid t)) = true
  · left
    rw [if_pos h]
  · right
    exact ⟨get_state_at rows et eid t, by rw [if_neg h, diffChanges_self]⟩

/-- C6 (counterexample).  On `dbTieRestore` the restore to time `"2"`
succeeds and writes a `restore` record stamped `"5"` — but the entity's
previous `update` record carries the very same timestamp, and the query
has no id tiebreaker, so a subsequent `get_state_at` at `"5"` returns the
*old* update snapshot, not the state the restore re-established. -/
theorem c6_counterexample :
    (restore_entity dbTieRestore "task" 1 "2" "5").1
        = RestoreResult.ok [("t", Value.str "A")]
      ∧ get_state_at (restore_entity dbTieRestore "task" 1 "2" "5").2.rows
          "task" 1 "5" = some [("t", Value.str "B")]
      ∧ some [("t", Value.str "B")] ≠ some [("t", Value.str "A")] := by
  refine ⟨by decide, by decide, by decide⟩

/-- C6 (amended).  When restore succeeds (reconstructed state non-empty,
not tombstoned, known entity type, restorable field list) *and* the fresh
`restore` record's timestamp is strictly later than every existing record
of the entity, then: the call returns the stripped reconstructed state, a
new `ChangeRecord` with action `restore`, `before` the prior live row (or
NULL) and `after` the restored state is appended to the log and is visible
in the entity's history, and a subsequent `get_state_at` at or past that
timestamp returns exactly the restored state (the reconstructed state at
`T` modulo the stripped internal marker fields). -/
theorem c6_restore_loop (db : DB) (et tbl : String) (eid : Int)
    (T now qt : String) (st : Dict)
    (hstate : get_state_at db.rows et eid T = some st)
    (hne : st ≠ [])
    (hndel : optTruthy (dget st "_deleted") = false)
    (htbl : table_map et = some tbl)
    (hfields : (stripInternal st).filter (fun kv => !(kv.1 == "id")) ≠ [])
    (hfresh : ∀ x ∈ db.rows, rowMatches et eid x = true →
        tsLt x.timestamp now = true)
    (hq : tsLe now qt = true) :
    (restore_entity db et eid T now).1 = RestoreResult.ok (stripInternal st)
      ∧ (restore_entity db et eid T now).2.rows
          = db.rows ++ [⟨db.nextId, et, eid, "restore",
              storeSnap (findRow (readTable db tbl) eid),
              some (stripInternal st), now⟩]
      ∧ (⟨db.nextId, et, eid, "restore",
            storeSnap (findRow (readTable db tbl) eid),
            some (stripInternal st), now⟩ : ChangeRecord)
          ∈ get_entity_history (restore_entity db et eid T now).2.rows et eid
      ∧ get_state_at (restore_entity db et eid T now).2.rows et eid qt
          = some (stripInternal st) := by
  have hrdne : stripInternal st ≠ [] := fun h => hfields (by rw [h]; rfl)
  have hndel' : ¬ (optTruthy (dget st "_deleted") = true) := by
    rw [hndel]
    decide
  have hss : storeSnap (some (stripInternal st)) = some (stripInternal st) := by
    simp [storeSnap, hrdne]
  have hgood : (restore_phase1 db et eid T).1
      = Phase1Out.good (stripInternal st) (findRow (readTable db tbl) eid) := by
    unfold restore_phase1
    rw [hstate]
    dsimp only
    rw [if_neg hne, if_neg hndel', htbl]
    dsimp only
    rcases hfind : findRow (readTable db tbl) eid with _ | prior
    · dsimp only
      rw [if_neg hrdne]
    · dsimp only
      rw [if_neg hfields]
  have hp := restore_phase1_preserves db et eid T
  rcases hq1 : restore_phase1 db et eid T with ⟨out, db1⟩
  rw [hq1] at hp hgood
  simp only at hgood
  subst hgood
  have hre : restore_entity db et eid T now
      = (.ok (stripInternal st),
         (log_action db1 et eid "restore" (findRow (readTable db tbl) eid)
            (some (stripInternal st)) now).1) := by
    unfold restore_entity
    rw [hq1]
  have hrows : (restore_entity db et eid T now).2.rows
      = db.rows ++ [⟨db.nextId, et, eid, "restore",
          storeSnap (findRow (readTable db tbl) eid),
          some (stripInternal st), now⟩] := by
    rw [hre]
    have hl : (log_action db1 et eid "restore" (findRow (readTable db tbl) eid)
          (some (stripInternal st)) now).1.rows
        = db1.rows ++ [⟨db1.nextId, et, eid, "restore",
            storeSnap (findRow (readTable db tbl) eid),
            storeSnap (some (stripInternal st)), now⟩] := rfl
    show (log_action db1 et eid "restore" (findRow (readTable db tbl) eid)
        (some (stripInternal st)) now).1.rows = _
    rw [hl, hp.1, hp.2, hss]
  have hr : rowMatchesAt et eid qt
      ⟨db.nextId, et, eid, "restore", storeSnap (findRow (readTable db tbl) eid),
        some (stripInternal st), now⟩ = true := by
    simp [rowMatchesAt, rowMatches, hq]
  have hsel := selectLatestAtMost_append_fresh db.rows
    ⟨db.nextId, et, eid, "restore", storeSnap (findRow (readTable db tbl) eid),
      some (stripInternal st), now⟩ et eid qt hr hfresh
  refine ⟨by rw [hre], hrows, ?_, ?_⟩
  · rw [hrows]
    unfold get_entity_history
    refine (List.mem_insertionSort _).mpr ?_
    rw [List.mem_filter]
    constructor
    · exact List.mem_append_right _ (List.mem_singleton_self _)
    · simp [rowMatches]
  · unfold get_state_at
    rw [hrows, hsel]
    simp

/-- C6 (witness). -/
theorem c6_restore_loop_witness :
    (restore_entity dbLive "task" 1 "1" "2").1
        = RestoreResult.ok (stripInternal [("t", Value.str "A")])
      ∧ (restore_entity dbLive "task" 1 "1" "2").2.rows
          = dbLive.rows ++ [⟨2, "task", 1, "restore",
              storeSnap (findRow (readTable dbLive "tasks") 1),
              some (stripInternal [("t", Value.str "A")]), "2"⟩]
      ∧ (⟨2, "task", 1, "restore",
            storeSnap (findRow (readTable dbLive "tasks") 1),
            some (stripInternal [("t", Value.str "A")]), "2"⟩ : ChangeRecord)
          ∈ get_entity_history (restore_entity dbLive "task" 1 "1" "2").2.rows "task" 1
      ∧ get_state_at (restore_entity dbLive "task" 1 "1" "2").2.rows "task" 1 "2"
          = some (stripInternal [("t", Value.str "A")]) :=
  c6_restore_loop dbLive "task" "tasks" 1 "1" "2" "2" [("t", Value.str "A")]
    (by decide) (by decide) (by decide) (by decide) (by decide) (by decide) (by decide)

end Flowable
